import Mathlib

/-!
Shallow embedding of `buildscripts/update_test_lifecycle.py`.

The file models, faithfully to the Python source:
  * the reliability classifier (`unreliable_test`, `reliable_test`),
  * tag construction and decomposition (`unreliable_tag`, `_split_tag`),
  * configuration validation (`validate_config`) together with the order of
    `main` (validation happens before any history fetch),
  * tag reconciliation (`_is_tag_still_relevant`, `cleanup_tags`),
  * test batching (`create_test_groups`, `create_batch_groups`),
  * and — modelled from the spec, since `buildscripts/test_failures.py` is not
    part of the sources — the aggregation engine (`Report.summarize_by`).

Python numbers are modelled as rationals (`ℚ`), which is exact for the int
arithmetic involved and idealizes floats; Python strings are `String`, and
`str.split` on a single-character separator is modelled character-wise with
`List.splitOn`.
-/

namespace UpdateTestLifecycle

/-- A dimension value of an execution record or summary: a concrete
identifier, or one of the two sentinels `tf.Wildcard` / `tf.Missing` used by
`test_failures` for "this dimension was not part of the grouping key". -/
inductive TfVal where
  | str : String → TfVal
  | wildcard : TfVal
  | missing : TfVal
deriving DecidableEq, Repr

/-- `isinstance(v, (tf.Wildcard, tf.Missing))` from the source. -/
def TfVal.isWCM : TfVal → Bool
  | .str _ => false
  | .wildcard => true
  | .missing => true

/-- Python `"{}".format(v)` for a dimension value.  In the source this is only
ever applied to concrete (string) components, because `unreliable_tag`
truncates at the first sentinel; the sentinel branches are therefore
unreachable there and given harmless placeholder renderings. -/
def TfVal.fmt : TfVal → String
  | .str s => s
  | .wildcard => "<wildcard>"
  | .missing => "<missing>"

/-- `unreliable_test(test_fr, unacceptable_fr, test_runs, min_run)`:
`return test_runs >= min_run and test_fr >= unacceptable_fr`. -/
def unreliable_test (test_fr unacceptable_fr test_runs min_run : ℚ) : Bool :=
  decide (min_run ≤ test_runs) && decide (unacceptable_fr ≤ test_fr)

/-- `reliable_test(test_fr, acceptable_fr, test_runs, min_run)`:
`return test_runs < min_run or test_fr <= acceptable_fr`. -/
def reliable_test (test_fr acceptable_fr test_runs min_run : ℚ) : Bool :=
  decide (test_runs < min_run) || decide (test_fr ≤ acceptable_fr)

/-- The `for` loop of `unreliable_tag`: walk the `(component_name,
component_value)` pairs; on the first `Wildcard`/`Missing` value return the
tag truncated according to the component's name (an unrecognized name, which
never occurs, would fall through to the next iteration as in Python); when
the loop finishes, return the fully specific tag. -/
def tagLoop (task variant distro : TfVal) : List (String × TfVal) → String
  | [] => "unreliable|" ++ task.fmt ++ "|" ++ variant.fmt ++ "|" ++ distro.fmt
  | (component_name, component_value) :: rest =>
    if component_value.isWCM then
      if component_name = "task" then "unreliable"
      else if component_name = "variant" then "unreliable|" ++ task.fmt
      else if component_name = "distro" then
        "unreliable|" ++ task.fmt ++ "|" ++ variant.fmt
      else tagLoop task variant distro rest
    else tagLoop task variant distro rest

/-- `unreliable_tag(task, variant, distro)`: walk `(task, variant, distro)` in
order and truncate the tag at the first `Wildcard`/`Missing` component. -/
def unreliable_tag (task variant distro : TfVal) : String :=
  tagLoop task variant distro
    [("task", task), ("variant", variant), ("distro", distro)]

/-- Python `s.split("|")`, modelled character-wise: split the character list
on the separator character (single-character separators make Python's
`str.split` and `List.splitOn` agree exactly). -/
def pySplitBar (s : String) : List String :=
  (s.data.splitOn '|').map (fun l => String.mk l)

/-- `_split_tag(tag)`: split on `"|"`; a valid tag has first element
`"unreliable"` and 2 to 4 elements in total, and decomposes into
`(task, variant, distro)` with `None` for absent components; anything else
gives `(None, None, None)`. -/
def split_tag (tag : String) : Option String × Option String × Option String :=
  let elements := pySplitBar tag
  let length := elements.length
  if elements.headD "" ≠ "unreliable" ∨ length < 2 ∨ 4 < length then
    (none, none, none)
  else
    match elements with
    | _ :: [a] => (some a, none, none)
    | _ :: [a, b] => (some a, some b, none)
    | _ :: [a, b, c] => (some a, some b, some c)
    | _ => (none, none, none)

/-- A Python value handed to `validate_config` as a failure rate or a
minimum-run count: an `int`, a `float` (idealized as an exact rational —
exact for every value appearing here), or a value of some non-numeric type
(`isinstance(v, _NUMBER_TYPES)` fails). -/
inductive PyVal where
  | intV : ℤ → PyVal
  | floatV : ℚ → PyVal
  | otherV : PyVal
deriving DecidableEq, Repr

/-- `isinstance(v, _NUMBER_TYPES)`. -/
def PyVal.isNumber : PyVal → Bool
  | .intV _ => true
  | .floatV _ => true
  | .otherV => false

/-- The numeric value; only consulted by `validate_config` after the
`isinstance` check has succeeded, so the `otherV` branch is dead code. -/
def PyVal.toRat : PyVal → ℚ
  | .intV n => n
  | .floatV q => q
  | .otherV => 0

/-- `isinstance(v, float) and not v.is_integer()`. -/
def PyVal.isNonIntegerFloat : PyVal → Bool
  | .floatV q => decide (q.den ≠ 1)
  | _ => false

/-- A Python value handed to `validate_config` as a time period: a
`datetime.timedelta` normalized to its total number of microseconds, or a
value of some other type. -/
inductive PyTimePeriod where
  | timedelta : ℤ → PyTimePeriod
  | otherTP : PyTimePeriod
deriving DecidableEq, Repr

def microsecondsPerDay : ℤ := 86400000000

/-- A `Rates` namedtuple. -/
structure Rates where
  acceptable : PyVal
  unacceptable : PyVal
deriving DecidableEq, Repr

/-- The `Config` namedtuple. -/
structure Config where
  test_fail_rates : Rates
  task_fail_rates : Rates
  variant_fail_rates : Rates
  distro_fail_rates : Rates
  reliable_min_runs : PyVal
  reliable_time_period : PyTimePeriod
  unreliable_min_runs : PyVal
  unreliable_time_period : PyTimePeriod
deriving DecidableEq, Repr

/-- The body of `validate_config`'s first loop for one `(name, fail_rates)`
pair: type check, range check and ordering check, in source order; an
`Except.error` models the raised `TypeError`/`ValueError`. -/
def checkFailRatePair (name : String) (fail_rates : Rates) :
    Except String Unit :=
  if ¬fail_rates.acceptable.isNumber then
    Except.error ("TypeError: the acceptable " ++ name
      ++ " failure rate must be a number")
  else if fail_rates.acceptable.toRat < 0 ∨ 1 < fail_rates.acceptable.toRat then
    Except.error ("ValueError: the acceptable " ++ name
      ++ " failure rate must be between 0 and 1")
  else if ¬fail_rates.unacceptable.isNumber then
    Except.error ("TypeError: the unacceptable " ++ name
      ++ " failure rate must be a number")
  else if fail_rates.unacceptable.toRat < 0 ∨ 1 < fail_rates.unacceptable.toRat then
    Except.error ("ValueError: the unacceptable " ++ name
      ++ " failure rate must be between 0 and 1")
  else if fail_rates.unacceptable.toRat < fail_rates.acceptable.toRat then
    Except.error ("ValueError: the acceptable " ++ name
      ++ " failure rate must be no larger than the unacceptable one")
  else Except.ok ()

/-- The body of `validate_config`'s second loop for one `(name, min_runs)`
pair: must be a number, positive, and (if a float) integral. -/
def checkMinRuns (name : String) (min_runs : PyVal) : Except String Unit :=
  if ¬min_runs.isNumber then
    Except.error ("TypeError: the minimum number of runs for considering a"
      ++ " test " ++ name ++ " must be a number")
  else if min_runs.toRat ≤ 0 then
    Except.error ("ValueError: the minimum number of runs for considering a"
      ++ " test " ++ name ++ " must be a positive integer")
  else if min_runs.isNonIntegerFloat then
    Except.error ("ValueError: the minimum number of runs for considering a"
      ++ " test " ++ name ++ " must be an integer")
  else Except.ok ()

/-- The body of `validate_config`'s third loop for one `(name, time_period)`
pair: must be a `timedelta`, with `.days >= 1` (Python `.days` is floor
division of the total microseconds by a day) and no sub-day remainder. -/
def checkTimePeriod (name : String) : PyTimePeriod → Except String Unit
  | .otherTP =>
    Except.error ("TypeError: the " ++ name
      ++ " time period must be a datetime.timedelta instance")
  | .timedelta t =>
    if t.fdiv microsecondsPerDay ≤ 0 then
      Except.error ("ValueError: the " ++ name
        ++ " time period must be a positive number of days")
    else if 0 < t.fmod microsecondsPerDay then
      Except.error ("ValueError: the " ++ name
        ++ " time period must be an integral number of days")
    else Except.ok ()

/-- `validate_config(config)`: runs the three check loops in source order and
propagates the first raised error. -/
def validate_config (config : Config) : Except String Unit := do
  checkFailRatePair "test" config.test_fail_rates
  checkFailRatePair "task" config.task_fail_rates
  checkFailRatePair "variant" config.variant_fail_rates
  checkFailRatePair "distro" config.distro_fail_rates
  checkMinRuns "reliable" config.reliable_min_runs
  checkMinRuns "unreliable" config.unreliable_min_runs
  checkTimePeriod "reliable" config.reliable_time_period
  checkTimePeriod "unreliable" config.unreliable_time_period

/-- The claim's description of a valid rate: a number in `[0, 1]`. -/
def goodRate (v : PyVal) : Prop :=
  v.isNumber = true ∧ 0 ≤ v.toRat ∧ v.toRat ≤ 1

/-- The claim's description of a valid threshold pair: both rates good and
acceptable at most unacceptable. -/
def goodPair (r : Rates) : Prop :=
  goodRate r.acceptable ∧ goodRate r.unacceptable ∧
    r.acceptable.toRat ≤ r.unacceptable.toRat

/-- The claim's description of a valid minimum-run count: a positive
integer (possibly represented as an integral float). -/
def goodMinRuns (v : PyVal) : Prop :=
  ∃ n : ℤ, 0 < n ∧ (v = PyVal.intV n ∨ v = PyVal.floatV n)

/-- The claim's description of a valid time period: a positive integral
number of days. -/
def goodTimePeriod (tp : PyTimePeriod) : Prop :=
  ∃ d : ℤ, 0 < d ∧ tp = PyTimePeriod.timedelta (d * microsecondsPerDay)

/-- A `Config` passing all of the claim's conditions. -/
def goodConfig (config : Config) : Prop :=
  goodPair config.test_fail_rates ∧ goodPair config.task_fail_rates ∧
    goodPair config.variant_fail_rates ∧ goodPair config.distro_fail_rates ∧
    goodMinRuns config.reliable_min_runs ∧
    goodMinRuns config.unreliable_min_runs ∧
    goodTimePeriod config.reliable_time_period ∧
    goodTimePeriod config.unreliable_time_period

/-- The two observable stages of `main` relevant to eager validation. -/
inductive MainOutcome where
  | configError : MainOutcome
  | fetchedHistory : MainOutcome
deriving DecidableEq, Repr

/-- `main` builds the `Config` and calls `validate_config` (line 553) before
any test history is fetched (line 587); an invalid configuration therefore
aborts the run before any fetch. -/
def mainModel (config : Config) : MainOutcome :=
  match validate_config config with
  | .error _ => .configError
  | .ok _ => .fetchedHistory

/-- `DEFAULT_CONFIG` from the source. -/
def DEFAULT_CONFIG : Config where
  test_fail_rates := ⟨.floatV (1/10), .floatV (3/10)⟩
  task_fail_rates := ⟨.floatV (1/10), .floatV (3/10)⟩
  variant_fail_rates := ⟨.floatV (1/5), .floatV (2/5)⟩
  distro_fail_rates := ⟨.floatV (1/5), .floatV (2/5)⟩
  reliable_min_runs := .intV 5
  reliable_time_period := .timedelta (7 * microsecondsPerDay)
  unreliable_min_runs := .intV 20
  unreliable_time_period := .timedelta (28 * microsecondsPerDay)

/-- The claim's scenario: the default configuration with the test threshold
pair replaced by the inverted pair `(acceptable=0.5, unacceptable=0.3)`. -/
def invertedPairConfig : Config :=
  { DEFAULT_CONFIG with test_fail_rates := ⟨.floatV (1/2), .floatV (3/10)⟩ }

/-- Modelled from the spec: `buildscripts/test_failures.py` is not among the
sources.  An `ExecutionRecord` / grouped `Report` entry per §3 of the spec:
four identifying dimensions (task/variant/distro possibly a
wildcard/missing sentinel), a calendar date (a day index), and pass/fail
counts. -/
structure Entry where
  test : String
  task : TfVal
  variant : TfVal
  distro : TfVal
  start_date : ℕ
  num_pass : ℕ
  num_fail : ℕ
deriving DecidableEq, Repr

/-- The four canonical grouping subsets of `tf.Report` used by
`update_tags`, finest to coarsest:
`TEST_TASK_VARIANT_DISTRO ⊃ TEST_TASK_VARIANT ⊃ TEST_TASK ⊃ TEST`. -/
inductive GroupLevel where
  | TEST : GroupLevel
  | TEST_TASK : GroupLevel
  | TEST_TASK_VARIANT : GroupLevel
  | TEST_TASK_VARIANT_DISTRO : GroupLevel
deriving DecidableEq, Repr

/-- The number of dimensions retained by a grouping subset. -/
def GroupLevel.rank : GroupLevel → ℕ
  | .TEST => 1
  | .TEST_TASK => 2
  | .TEST_TASK_VARIANT => 3
  | .TEST_TASK_VARIANT_DISTRO => 4

/-- `c` is a coarser-or-equal dimension subset than `f` (the four canonical
subsets are nested, so rank comparison is subset comparison). -/
def coarserOrEqual (c f : GroupLevel) : Prop := c.rank ≤ f.rank

instance (c f : GroupLevel) : Decidable (coarserOrEqual c f) := by
  unfold coarserOrEqual; infer_instance

/-- Modelled from the spec: collapse every dimension not in the grouping
subset to the wildcard sentinel, keeping the date and the counts. -/
def projEntry (lvl : GroupLevel) (e : Entry) : Entry :=
  { e with
    task := if 2 ≤ lvl.rank then e.task else .wildcard
    variant := if 3 ≤ lvl.rank then e.variant else .wildcard
    distro := if 4 ≤ lvl.rank then e.distro else .wildcard }

/-- The identifying key of an entry (all four dimensions, no date). -/
def ekey (e : Entry) : String × TfVal × TfVal × TfVal :=
  (e.test, e.task, e.variant, e.distro)

/-- The key of an entry under a grouping subset. -/
def skey (lvl : GroupLevel) (e : Entry) : String × TfVal × TfVal × TfVal :=
  ekey (projEntry lvl e)

/-- Fold two entries sharing a (key, day) group: sum the counts. -/
def mergeCounts (a e : Entry) : Entry :=
  { a with num_pass := a.num_pass + e.num_pass,
           num_fail := a.num_fail + e.num_fail }

/-- Insert an (already projected) entry into the grouped accumulator: add
its counts into the entry with the same key and day if one exists, else
append it as a new group. -/
def insertEntry (e : Entry) : List Entry → List Entry
  | [] => [e]
  | a :: rest =>
    if ekey a = ekey e ∧ a.start_date = e.start_date then
      mergeCounts a e :: rest
    else a :: insertEntry e rest

/-- Modelled from the spec: `Report.summarize_by(components,
time_period=DAILY)` — group a report's entries by (subset key, day), summing
pass/fail counts across records sharing the same key and day. -/
def summarize_by_daily (lvl : GroupLevel) (report : List Entry) : List Entry :=
  report.foldl (fun acc e => insertEntry (projEntry lvl e) acc) []

/-- Total over a report of one numeric field of the entries whose subset key
equals `k`. -/
def fieldTotal (g : Entry → ℕ) (lvl : GroupLevel) (report : List Entry)
    (k : String × TfVal × TfVal × TfVal) : ℕ :=
  ((report.filter (fun e => decide (skey lvl e = k))).map g).sum

/-- Modelled from the spec: the `Summary` that `Report.summarize_by`
(without daily bucketing) produces for subset key `k` — total pass count,
total fail count, and fail rate `fail / (pass + fail)`, defined as `0` when
`pass + fail = 0`.  Summaries are identified by their key, so two runs of
the aggregation produce "the same Summaries" exactly when these triples
agree for every key. -/
def summaryAt (lvl : GroupLevel) (report : List Entry)
    (k : String × TfVal × TfVal × TfVal) : ℕ × ℕ × ℚ :=
  let p := fieldTotal Entry.num_pass lvl report k
  let f := fieldTotal Entry.num_fail lvl report k
  (p, f, if p + f = 0 then 0 else (f : ℚ) / ((p : ℚ) + (f : ℚ)))

/-- The triple of components that the claim expects `_split_tag` to recover
from a constructed tag: the non-wildcarded components before the first
`Wildcard`/`Missing`, and `none` for every component at or after it. -/
def roundTripComponents (task variant distro : TfVal) :
    Option String × Option String × Option String :=
  if task.isWCM then (none, none, none)
  else if variant.isWCM then (some task.fmt, none, none)
  else if distro.isWCM then (some task.fmt, some variant.fmt, none)
  else (some task.fmt, some variant.fmt, some distro.fmt)

end UpdateTestLifecycle

namespace UpdateTestLifecycle

/-- `'|' ∉ s` at the character level, for a component's rendered string. -/
def barFree (v : TfVal) : Prop := '|' ∉ v.fmt.data

instance (v : TfVal) : Decidable (barFree v) := by
  unfold barFree; infer_instance

lemma splitOn_bar_single {l : List Char} (h : '|' ∉ l) :
    l.splitOn '|' = [l] := by
  apply List.splitOnP_eq_single
  intro x hx
  simp only [beq_iff_eq]
  rintro rfl
  exact h hx

lemma splitOn_bar_append {a b : List Char} (h : '|' ∉ a) :
    (a ++ '|' :: b).splitOn '|' = a :: b.splitOn '|' := by
  apply List.splitOnP_first
  · intro x hx
    simp only [beq_iff_eq]
    rintro rfl
    exact h hx
  · simp

lemma data_append (s t : String) : (s ++ t).data = s.data ++ t.data := rfl

lemma mk_data (s : String) : String.mk s.data = s := rfl

/-- `pySplitBar` of a tag of the shape `"unreliable|" ++ rest`. -/
lemma pySplitBar_unreliable_cons (rest : String) :
    pySplitBar ("unreliable|" ++ rest) = "unreliable" :: pySplitBar rest := by
  unfold pySplitBar
  have h : ("unreliable|" ++ rest).data = "unreliable".data ++ '|' :: rest.data := rfl
  rw [h, splitOn_bar_append (by decide)]
  simp [mk_data]

lemma pySplitBar_barFree {s : String} (h : '|' ∉ s.data) :
    pySplitBar s = [s] := by
  unfold pySplitBar
  rw [splitOn_bar_single h]
  simp [mk_data]

lemma pySplitBar_sep (a b : String) (ha : '|' ∉ a.data) :
    pySplitBar (a ++ "|" ++ b) = a :: pySplitBar b := by
  unfold pySplitBar
  have h : (a ++ "|" ++ b).data = a.data ++ '|' :: b.data := by
    simp [data_append]
  rw [h, splitOn_bar_append ha]
  simp [mk_data]

lemma str_append_assoc (a b c : String) : a ++ b ++ c = a ++ (b ++ c) := by
  apply String.ext
  simp [data_append]

lemma checkFailRatePair_ok_iff (name : String) (r : Rates) :
    checkFailRatePair name r = Except.ok () ↔ goodPair r := by
  unfold checkFailRatePair goodPair goodRate
  constructor
  · intro h
    split_ifs at h with h1 h2 h3 h4 h5
    push_neg at h1 h2 h3 h4 h5
    exact ⟨⟨h1, h2.1, h2.2⟩, ⟨h3, h4.1, h4.2⟩, h5⟩
  · rintro ⟨⟨ha1, ha2, ha3⟩, ⟨hb1, hb2, hb3⟩, hab⟩
    rw [if_neg (not_not_intro ha1), if_neg (by push_neg; exact ⟨ha2, ha3⟩),
      if_neg (not_not_intro hb1), if_neg (by push_neg; exact ⟨hb2, hb3⟩),
      if_neg (not_lt.mpr hab)]

lemma checkMinRuns_ok_iff (name : String) (v : PyVal) :
    checkMinRuns name v = Except.ok () ↔ goodMinRuns v := by
  unfold checkMinRuns goodMinRuns
  cases v with
  | intV n =>
    simp only [PyVal.isNumber, PyVal.toRat, PyVal.isNonIntegerFloat,
      Bool.true_eq_false, not_true_eq_false, if_false, PyVal.intV.injEq,
      reduceCtorEq, or_false, exists_eq_right_right]
    split_ifs with h
    · simp only [reduceCtorEq, false_iff, not_exists, not_and]
      have hn : n ≤ 0 := by exact_mod_cast h
      rintro m hm rfl
      omega
    · simp only [true_iff]
      push_neg at h
      exact ⟨n, by exact_mod_cast h, rfl⟩
  | floatV q =>
    simp only [PyVal.isNumber, PyVal.toRat, PyVal.isNonIntegerFloat,
      not_true_eq_false, if_false, reduceCtorEq, PyVal.floatV.injEq,
      false_or]
    split_ifs with h1 h2
    · simp only [reduceCtorEq, false_iff, not_exists, not_and]
      rintro n hn rfl
      exact absurd h1 (by push_neg; exact_mod_cast hn)
    · simp only [reduceCtorEq, false_iff, not_exists, not_and]
      rintro n hn rfl
      simp [Rat.den_intCast] at h2
    · simp only [decide_eq_true_eq, not_not] at h2
      push_neg at h1
      simp only [true_iff]
      refine ⟨q.num, ?_, ?_⟩
      · exact Rat.num_pos.mpr h1
      · exact (Rat.coe_int_num_of_den_eq_one h2).symm
  | otherV =>
    simp [PyVal.isNumber]

lemma checkTimePeriod_ok_iff (name : String) (tp : PyTimePeriod) :
    checkTimePeriod name tp = Except.ok () ↔ goodTimePeriod tp := by
  cases tp with
  | otherTP => simp [checkTimePeriod, goodTimePeriod]
  | timedelta t =>
    simp only [checkTimePeriod, goodTimePeriod]
    have hb : (0 : ℤ) ≤ microsecondsPerDay := by unfold microsecondsPerDay; norm_num
    rw [Int.fdiv_eq_ediv _ hb, Int.fmod_eq_emod _ hb]
    unfold microsecondsPerDay
    split_ifs with h1 h2
    · simp only [reduceCtorEq, false_iff, not_exists, not_and,
        PyTimePeriod.timedelta.injEq]
      rintro d hd rfl
      omega
    · simp only [reduceCtorEq, false_iff, not_exists, not_and,
        PyTimePeriod.timedelta.injEq]
      rintro d hd rfl
      omega
    · simp only [true_iff, PyTimePeriod.timedelta.injEq]
      refine ⟨t / 86400000000, by omega, by omega⟩

lemma except_andThen_ok {a b : Except String Unit} :
    (a >>= fun _ => b) = Except.ok () ↔
      a = Except.ok () ∧ b = Except.ok () := by
  cases a with
  | error e => simp [Bind.bind, Except.bind]
  | ok u => cases u; simp [Bind.bind, Except.bind]

lemma validate_config_ok_iff (config : Config) :
    validate_config config = Except.ok () ↔ goodConfig config := by
  unfold validate_config goodConfig
  simp only [except_andThen_ok, checkFailRatePair_ok_iff, checkMinRuns_ok_iff,
    checkTimePeriod_ok_iff]

/-- C5: `validate_config` raises an error if and only if some threshold pair
has acceptable above unacceptable, some rate is outside `[0,1]` or is not a
number, some minimum-run count is not a positive integer, or some time
period is not a positive integral number of days; in `main` the error occurs
before any history fetch; and in particular the inverted pair
`(acceptable = 0.5, unacceptable = 0.3)` fails validation. -/
theorem validate_config_error_iff :
    (∀ config : Config,
        (validate_config config = Except.ok () ↔ goodConfig config) ∧
        (validate_config config ≠ Except.ok () →
          mainModel config = MainOutcome.configError)) ∧
    validate_config invertedPairConfig ≠ Except.ok () := by
  constructor
  · intro config
    refine ⟨validate_config_ok_iff config, ?_⟩
    intro h
    unfold mainModel
    cases hv : validate_config config with
    | error e => rfl
    | ok u => cases u; exact absurd hv h
  · intro h
    rw [validate_config_ok_iff] at h
    obtain ⟨⟨-, -, hle⟩, -⟩ := h
    norm_num [invertedPairConfig, DEFAULT_CONFIG, PyVal.toRat] at hle

/-- Witness for C5: the inverted threshold pair makes `main` abort on
validation, before any history fetch. -/
theorem validate_config_error_iff_witness :
    mainModel invertedPairConfig = MainOutcome.configError :=
  (validate_config_error_iff.1 invertedPairConfig).2
    validate_config_error_iff.2

/-- C2: `unreliable_test` is true exactly when the run count reaches the
minimum-run count and the fail rate reaches the unacceptable threshold
(ties at the threshold counting as unreliable). -/
theorem unreliable_test_iff (test_fr unacceptable_fr test_runs min_run : ℚ) :
    unreliable_test test_fr unacceptable_fr test_runs min_run = true ↔
      (min_run ≤ test_runs ∧ unacceptable_fr ≤ test_fr) := by
  simp [unreliable_test]

/-- C3: `reliable_test` is true exactly when the run count is strictly below
the minimum-run count or the fail rate is at most the acceptable threshold
(ties at the threshold counting as reliable). -/
theorem reliable_test_iff (test_fr acceptable_fr test_runs min_run : ℚ) :
    reliable_test test_fr acceptable_fr test_runs min_run = true ↔
      (test_runs < min_run ∨ test_fr ≤ acceptable_fr) := by
  simp [reliable_test]

/-- C4: when the run count reaches the minimum and the acceptable threshold
is strictly below the unacceptable one, `unreliable_test` and `reliable_test`
are never both true on the same inputs; and there are inputs in that regime
on which both are false (the ambiguous zone). -/
theorem classifier_no_overlap :
    (∀ test_fr acceptable_fr unacceptable_fr test_runs min_run : ℚ,
        min_run ≤ test_runs → acceptable_fr < unacceptable_fr →
        ¬(unreliable_test test_fr unacceptable_fr test_runs min_run = true ∧
          reliable_test test_fr acceptable_fr test_runs min_run = true)) ∧
    (∃ test_fr acceptable_fr unacceptable_fr test_runs min_run : ℚ,
        min_run ≤ test_runs ∧ acceptable_fr < unacceptable_fr ∧
        unreliable_test test_fr unacceptable_fr test_runs min_run = false ∧
        reliable_test test_fr acceptable_fr test_runs min_run = false) := by
  constructor
  · intro fr acc unacc runs m hruns hlt
    simp only [unreliable_test, reliable_test, Bool.and_eq_true, Bool.or_eq_true,
      decide_eq_true_eq, not_and]
    rintro ⟨-, hfr⟩ (hlt2 | hle)
    · linarith
    · linarith
  · refine ⟨1/2, 1/4, 3/4, 10, 5, by norm_num, by norm_num, ?_, ?_⟩
    · simp only [unreliable_test, Bool.and_eq_false_iff, decide_eq_false_iff_not]
      right; norm_num
    · simp only [reliable_test, Bool.or_eq_false_iff, decide_eq_false_iff_not]
      norm_num

/-- Witness for C4 at concrete inputs. -/
theorem classifier_no_overlap_witness :
    ¬(unreliable_test (1/2) (3/4) 10 5 = true ∧
      reliable_test (1/2) (1/4) 10 5 = true) :=
  classifier_no_overlap.1 (1/2) (1/4) (3/4) 10 5 (by norm_num) (by norm_num)

/-- C6: `unreliable_tag` truncates the tag at the first wildcarded component
in the order (task, variant, distro): the bare token when the task is
wildcarded, task only when the variant is the first wildcard, task and
variant when the distro is the first wildcard, and all three components
otherwise.  It is a function of its arguments, hence deterministic. -/
theorem unreliable_tag_truncates (task variant distro : TfVal) :
    unreliable_tag task variant distro =
      (if task.isWCM then "unreliable"
       else if variant.isWCM then "unreliable|" ++ task.fmt
       else if distro.isWCM then "unreliable|" ++ task.fmt ++ "|" ++ variant.fmt
       else "unreliable|" ++ task.fmt ++ "|" ++ variant.fmt ++ "|" ++ distro.fmt) := by
  cases task <;> cases variant <;> cases distro <;>
    simp [unreliable_tag, tagLoop, TfVal.isWCM]

/-- C7 fails as stated: a concrete task identifier containing the separator
character produces a tag whose decomposition does not recover the components
used to build it. -/
theorem tag_round_trip_cex :
    ¬(split_tag (unreliable_tag (TfVal.str "a|b") TfVal.wildcard TfVal.wildcard) =
      roundTripComponents (TfVal.str "a|b") TfVal.wildcard TfVal.wildcard) := by
  decide

/-- C7 (amended): provided no concrete component's identifier contains the
separator character `'|'`, decomposing a constructed tag with `_split_tag`
recovers exactly the non-wildcarded components before the first wildcard,
with `none` for every absent component. -/
theorem tag_round_trip (task variant distro : TfVal)
    (ht : barFree task) (hv : barFree variant) (hd : barFree distro) :
    split_tag (unreliable_tag task variant distro) =
      roundTripComponents task variant distro := by
  rw [unreliable_tag_truncates]
  unfold barFree at ht hv hd
  cases task with
  | wildcard =>
    simp only [TfVal.isWCM, if_true, roundTripComponents]
    decide
  | missing =>
    simp only [TfVal.isWCM, if_true, roundTripComponents]
    decide
  | str s =>
  simp only [TfVal.isWCM, TfVal.fmt, Bool.false_eq_true, if_false,
    roundTripComponents] at ht ⊢
  cases variant with
  | wildcard =>
    simp only [TfVal.isWCM, if_true]
    unfold split_tag
    rw [pySplitBar_unreliable_cons, pySplitBar_barFree ht]
    simp
  | missing =>
    simp only [TfVal.isWCM, if_true]
    unfold split_tag
    rw [pySplitBar_unreliable_cons, pySplitBar_barFree ht]
    simp
  | str v =>
  simp only [TfVal.isWCM, TfVal.fmt, Bool.false_eq_true, if_false] at hv ⊢
  have e2 : ("unreliable|" ++ s ++ "|" ++ v : String) =
      "unreliable|" ++ (s ++ "|" ++ v) := by
    apply String.ext; simp [data_append]
  cases distro with
  | wildcard =>
    simp only [TfVal.isWCM, if_true]
    unfold split_tag
    rw [e2, pySplitBar_unreliable_cons, pySplitBar_sep _ _ ht,
      pySplitBar_barFree hv]
    simp
  | missing =>
    simp only [TfVal.isWCM, if_true]
    unfold split_tag
    rw [e2, pySplitBar_unreliable_cons, pySplitBar_sep _ _ ht,
      pySplitBar_barFree hv]
    simp
  | str d =>
  simp only [TfVal.isWCM, TfVal.fmt, Bool.false_eq_true, if_false] at hd ⊢
  have e3 : ("unreliable|" ++ s ++ "|" ++ v ++ "|" ++ d : String) =
      "unreliable|" ++ (s ++ "|" ++ (v ++ "|" ++ d)) := by
    apply String.ext; simp [data_append]
  unfold split_tag
  rw [e3, pySplitBar_unreliable_cons, pySplitBar_sep _ _ ht,
    pySplitBar_sep _ _ hv, pySplitBar_barFree hd]
  simp

/-- Witness for C7's amended round trip at concrete inputs. -/
theorem tag_round_trip_witness :
    split_tag (unreliable_tag (TfVal.str "jsCore") (TfVal.str "linux-64")
        TfVal.missing) =
      roundTripComponents (TfVal.str "jsCore") (TfVal.str "linux-64")
        TfVal.missing :=
  tag_round_trip (TfVal.str "jsCore") (TfVal.str "linux-64") TfVal.missing
    (by decide) (by decide) (by decide)

end UpdateTestLifecycle

namespace UpdateTestLifecycle

lemma skey_projEntry {c f : GroupLevel} (h : coarserOrEqual c f) (e : Entry) :
    skey c (projEntry f e) = skey c e := by
  cases c <;> cases f <;>
    simp_all [coarserOrEqual, GroupLevel.rank, skey, ekey, projEntry]

lemma skey_eq_of_ekey_eq {a e : Entry} (h : ekey a = ekey e)
    (c : GroupLevel) : skey c a = skey c e := by
  unfold ekey at h
  simp only [Prod.mk.injEq] at h
  obtain ⟨h1, h2, h3, h4⟩ := h
  unfold skey ekey projEntry
  rw [h1, h2, h3, h4]

lemma skey_mergeCounts (a e : Entry) (c : GroupLevel) :
    skey c (mergeCounts a e) = skey c a := rfl

lemma fieldTotal_nil (g : Entry → ℕ) (c : GroupLevel) (k) :
    fieldTotal g c [] k = 0 := rfl

lemma fieldTotal_cons (g : Entry → ℕ) (c : GroupLevel) (x : Entry)
    (l : List Entry) (k) :
    fieldTotal g c (x :: l) k =
      (if skey c x = k then g x else 0) + fieldTotal g c l k := by
  unfold fieldTotal
  rw [List.filter_cons]
  by_cases h : skey c x = k
  · simp [h]
  · simp [h]

lemma fieldTotal_insertEntry (g : Entry → ℕ)
    (hg : ∀ a e, g (mergeCounts a e) = g a + g e)
    (c : GroupLevel) (e : Entry) (acc : List Entry) (k) :
    fieldTotal g c (insertEntry e acc) k =
      fieldTotal g c acc k + (if skey c e = k then g e else 0) := by
  induction acc with
  | nil =>
    rw [insertEntry]
    rw [fieldTotal_cons, fieldTotal_nil]
    omega
  | cons a rest ih =>
    rw [insertEntry]
    by_cases hm : ekey a = ekey e ∧ a.start_date = e.start_date
    · rw [if_pos hm]
      have hkey : skey c a = skey c e := skey_eq_of_ekey_eq hm.1 c
      rw [fieldTotal_cons, fieldTotal_cons, skey_mergeCounts, hg, hkey]
      split_ifs <;> omega
    · rw [if_neg hm]
      rw [fieldTotal_cons, fieldTotal_cons, ih]
      split_ifs <;> omega

lemma fieldTotal_summarize_go (g : Entry → ℕ)
    (hg : ∀ a e, g (mergeCounts a e) = g a + g e)
    (hp : ∀ lvl e, g (projEntry lvl e) = g e)
    {c f : GroupLevel} (hcf : coarserOrEqual c f)
    (report : List Entry) (k) :
    ∀ acc : List Entry,
      fieldTotal g c
          (report.foldl (fun acc e => insertEntry (projEntry f e) acc) acc) k =
        fieldTotal g c acc k + fieldTotal g c report k := by
  induction report with
  | nil => intro acc; simp [fieldTotal_nil]
  | cons e rest ih =>
    intro acc
    simp only [List.foldl_cons]
    rw [ih, fieldTotal_insertEntry g hg, skey_projEntry hcf, hp,
      fieldTotal_cons]
    omega

lemma fieldTotal_summarize_by_daily (g : Entry → ℕ)
    (hg : ∀ a e, g (mergeCounts a e) = g a + g e)
    (hp : ∀ lvl e, g (projEntry lvl e) = g e)
    {c f : GroupLevel} (hcf : coarserOrEqual c f)
    (report : List Entry) (k) :
    fieldTotal g c (summarize_by_daily f report) k =
      fieldTotal g c report k := by
  unfold summarize_by_daily
  rw [fieldTotal_summarize_go g hg hp hcf report k [], fieldTotal_nil]
  omega

/-- C1: grouping a report by a dimension subset with daily bucketing and
then summarizing that output by any coarser-or-equal subset yields exactly
the same Summaries (pass total, fail total and fail rate at every key) as
summarizing the raw records directly by the coarser subset.  This is the
grouping-equivalence `update_tags` relies on pass after pass, finest
(`TEST_TASK_VARIANT_DISTRO`) to coarsest (`TEST`). -/
theorem summarize_by_daily_equiv (coarse fine : GroupLevel)
    (h : coarserOrEqual coarse fine) (report : List Entry)
    (k : String × TfVal × TfVal × TfVal) :
    summaryAt coarse (summarize_by_daily fine report) k =
      summaryAt coarse report k := by
  unfold summaryAt
  rw [fieldTotal_summarize_by_daily Entry.num_pass (fun a e => rfl)
      (fun lvl e => rfl) h report k,
    fieldTotal_summarize_by_daily Entry.num_fail (fun a e => rfl)
      (fun lvl e => rfl) h report k]

/-- Witness for C1: two raw records on the same (test, task) but different
variants/distros/days, re-aggregated from the daily
(test, task, variant, distro) grouping at the (test, task) level. -/
theorem summarize_by_daily_equiv_witness :
    summaryAt GroupLevel.TEST_TASK
        (summarize_by_daily GroupLevel.TEST_TASK_VARIANT_DISTRO
          [⟨"jstests/core/a.js", .str "t1", .str "v1", .str "d1", 3, 4, 1⟩,
           ⟨"jstests/core/a.js", .str "t1", .str "v2", .str "d2", 5, 2, 2⟩])
        ("jstests/core/a.js", .str "t1", .wildcard, .wildcard) =
      summaryAt GroupLevel.TEST_TASK
        [⟨"jstests/core/a.js", .str "t1", .str "v1", .str "d1", 3, 4, 1⟩,
         ⟨"jstests/core/a.js", .str "t1", .str "v2", .str "d2", 5, 2, 2⟩]
        ("jstests/core/a.js", .str "t1", .wildcard, .wildcard) :=
  summarize_by_daily_equiv GroupLevel.TEST_TASK
    GroupLevel.TEST_TASK_VARIANT_DISTRO (by decide)
    [⟨"jstests/core/a.js", .str "t1", .str "v1", .str "d1", 3, 4, 1⟩,
     ⟨"jstests/core/a.js", .str "t1", .str "v2", .str "d2", 5, 2, 2⟩]
    ("jstests/core/a.js", .str "t1", .wildcard, .wildcard)

end UpdateTestLifecycle

namespace UpdateTestLifecycle

/-- Modelled from the spec: one build variant of the CI project topology
exposed by `ciconfig.evergreen.EvergreenProjectConfig` (not under the
sources): its name, the names of the tasks it runs, and its distros. -/
structure VariantConf where
  name : String
  task_names : List String
  distros : List String
deriving DecidableEq, Repr

/-- Modelled from the spec: the CI project topology — all task names and all
build variants. -/
structure EvergreenProjectConfig where
  task_names : List String
  variants : List VariantConf
deriving DecidableEq, Repr

/-- Modelled from the spec: `evg_conf.get_variant(name)` — the variant with
the given name, if any. -/
def EvergreenProjectConfig.get_variant (evg_conf : EvergreenProjectConfig)
    (name : String) : Option VariantConf :=
  evg_conf.variants.find? (fun v => v.name = name)

/-- Python truthiness of an optional string (`not task`): `None` and the
empty string are falsy. -/
def truthyOpt : Option String → Bool
  | none => false
  | some s => decide (s ≠ "")

/-- `_is_tag_still_relevant(evg_conf, tag)`: decompose the tag with
`_split_tag`; the task must be truthy and a known task name; if the variant
is truthy it must name an existing variant that runs the task, and a truthy
distro must be among that variant's distros. -/
def is_tag_still_relevant (evg_conf : EvergreenProjectConfig)
    (tag : String) : Bool :=
  match split_tag tag with
  | (task, variant, distro) =>
    if ¬truthyOpt task ∨ ¬decide (task.getD "" ∈ evg_conf.task_names) then
      false
    else if truthyOpt variant then
      match evg_conf.get_variant (variant.getD "") with
      | none => false
      | some variant_conf =>
        if ¬decide (task.getD "" ∈ variant_conf.task_names) then false
        else if truthyOpt distro ∧
            ¬decide (distro.getD "" ∈ variant_conf.distros) then false
        else true
    else true

/-- Modelled from the spec: one `(test-kind, test-pattern, tags)` entry of
the YAML-backed `TagsConfig` (`ciconfig.tags`, not under the sources),
flattened into a list. -/
structure TagsConfigEntry where
  test_kind : String
  test_pattern : String
  tags : List String
deriving DecidableEq, Repr

/-- `cleanup_tags(lifecycle, evg_conf)`, with `globstar.glob` abstracted as
the predicate `globMatches` (`globMatches pattern = true` iff the pattern
matches at least one file in the working tree): drop every entry whose
pattern matches no file, and from the remaining entries remove every tag
that is no longer relevant. -/
def cleanup_tags (evg_conf : EvergreenProjectConfig)
    (globMatches : String → Bool) (lifecycle : List TagsConfigEntry) :
    List TagsConfigEntry :=
  (lifecycle.filter (fun entry => globMatches entry.test_pattern)).map
    (fun entry =>
      { entry with
        tags := entry.tags.filter
          (fun tag => is_tag_still_relevant evg_conf tag) })

/-- The claim's relevance condition on a tag, spelled from its `_split_tag`
decomposition (a component is "present" when it is a non-empty string, the
Python truthiness used by the source): the task exists in the topology; a
present variant names an existing variant that has the task among its own
tasks; a present distro exists under that variant. -/
def relevantSpec (evg_conf : EvergreenProjectConfig) (tag : String) : Prop :=
  ∃ task : String,
    (split_tag tag).1 = some task ∧ task ≠ "" ∧
    task ∈ evg_conf.task_names ∧
    (∀ variant : String, (split_tag tag).2.1 = some variant → variant ≠ "" →
      ∃ variant_conf : VariantConf,
        evg_conf.get_variant variant = some variant_conf ∧
        task ∈ variant_conf.task_names ∧
        (∀ distro : String, (split_tag tag).2.2 = some distro → distro ≠ "" →
          distro ∈ variant_conf.distros))

end UpdateTestLifecycle
namespace UpdateTestLifecycle

lemma is_tag_still_relevant_iff (evg_conf : EvergreenProjectConfig)
    (tag : String) :
    is_tag_still_relevant evg_conf tag = true ↔ relevantSpec evg_conf tag := by
  unfold is_tag_still_relevant relevantSpec
  rcases hsp : split_tag tag with ⟨tOpt, vOpt, dOpt⟩
  simp only [hsp]
  cases tOpt with
  | none => simp [truthyOpt]
  | some t =>
  by_cases ht : t = ""
  · subst ht
    simp [truthyOpt]
  · simp only [truthyOpt, Option.getD_some, ne_eq, ht, not_false_eq_true,
      decide_True, not_true_eq_false, false_or, Option.some.injEq]
    by_cases hm : t ∈ evg_conf.task_names
    · simp only [hm, decide_True, not_true_eq_false, if_false]
      cases vOpt with
      | none =>
        simp [truthyOpt, ht, hm]
      | some v =>
      by_cases hv : v = ""
      · subst hv
        simp [truthyOpt, ht, hm]
      · simp only [truthyOpt, Option.getD_some, ne_eq, hv, not_false_eq_true,
          decide_True, if_true, Option.some.injEq]
        cases hgv : evg_conf.get_variant v with
        | none =>
          simp only [hgv]
          simp [ht, hm, hgv]
          exact hv
        | some variant_conf =>
          simp only [hgv]
          by_cases hvt : t ∈ variant_conf.task_names
          · simp only [hvt, decide_True, not_true_eq_false, if_false]
            cases dOpt with
            | none =>
              simp [truthyOpt, ht, hm, hvt]
              exact fun _ => ⟨variant_conf, hgv, hvt⟩
            | some d =>
            by_cases hd : d = ""
            · subst hd
              simp [truthyOpt, ht, hm, hvt]
              exact fun _ => ⟨variant_conf, hgv, hvt⟩
            · by_cases hdm : d ∈ variant_conf.distros
              · simp [truthyOpt, ht, hm, hvt, hd, hdm]
                exact fun _ => ⟨variant_conf, hgv, hvt, hdm⟩
              · simp [truthyOpt, ht, hm, hvt, hd, hdm]
                refine ⟨hv, fun x hx hmem => ?_⟩
                rw [hgv] at hx
                injection hx with hh
                subst hh
                exact hdm
          · simp [ht, hm, hvt]
            refine ⟨hv, fun x hx hmem => ?_⟩
            rw [hgv] at hx
            injection hx with hh
            subst hh
            exact absurd hmem hvt
    · simp [hm, ht]

end UpdateTestLifecycle

namespace UpdateTestLifecycle

/-- C8: after `cleanup_tags` runs, a (test-kind, test-pattern, tag) entry
survives iff the pattern matches at least one file in the working tree AND
the tag's `_split_tag` decomposition passes the topology checks (task
exists; a present variant exists and includes the task; a present distro
exists under that variant); a pattern matching zero files has its whole
entry dropped, and any failing check removes the tag. -/
theorem cleanup_tags_survival (evg_conf : EvergreenProjectConfig)
    (globMatches : String → Bool) (lifecycle : List TagsConfigEntry)
    (kind pat tag : String) :
    (∃ entry ∈ cleanup_tags evg_conf globMatches lifecycle,
        entry.test_kind = kind ∧ entry.test_pattern = pat ∧
        tag ∈ entry.tags) ↔
      ((∃ entry ∈ lifecycle,
          entry.test_kind = kind ∧ entry.test_pattern = pat ∧
          tag ∈ entry.tags) ∧
        globMatches pat = true ∧ relevantSpec evg_conf tag) := by
  unfold cleanup_tags
  constructor
  · rintro ⟨entry', hmem, hkind, hpat, htag⟩
    simp only [List.mem_map, List.mem_filter] at hmem
    obtain ⟨entry, ⟨hin, hglob⟩, rfl⟩ := hmem
    rw [List.mem_filter] at htag
    refine ⟨⟨entry, hin, hkind, hpat, htag.1⟩, ?_, ?_⟩
    · rw [← hpat]
      exact hglob
    · exact (is_tag_still_relevant_iff evg_conf tag).mp htag.2
  · rintro ⟨⟨entry, hin, hkind, hpat, htag⟩, hglob, hrel⟩
    refine ⟨{ entry with
        tags := entry.tags.filter
          (fun tg => is_tag_still_relevant evg_conf tg) }, ?_, hkind, hpat, ?_⟩
    · simp only [List.mem_map, List.mem_filter]
      refine ⟨entry, ⟨hin, ?_⟩, rfl⟩
      rw [hpat]
      exact hglob
    · rw [List.mem_filter]
      exact ⟨htag, (is_tag_still_relevant_iff evg_conf tag).mpr hrel⟩

/-- Witness for C8 at a concrete topology and tag set. -/
theorem cleanup_tags_survival_witness :
    ∃ entry ∈ cleanup_tags ⟨["t1"], [⟨"v1", ["t1"], ["d1"]⟩]⟩
        (fun _ => true)
        [⟨"js_test", "jstests/core/a.js", ["unreliable|t1|v1|d1"]⟩],
      entry.test_kind = "js_test" ∧
      entry.test_pattern = "jstests/core/a.js" ∧
      "unreliable|t1|v1|d1" ∈ entry.tags := by
  apply (cleanup_tags_survival ⟨["t1"], [⟨"v1", ["t1"], ["d1"]⟩]⟩
    (fun _ => true)
    [⟨"js_test", "jstests/core/a.js", ["unreliable|t1|v1|d1"]⟩]
    "js_test" "jstests/core/a.js" "unreliable|t1|v1|d1").mpr
  refine ⟨⟨⟨"js_test", "jstests/core/a.js", ["unreliable|t1|v1|d1"]⟩,
    by decide, rfl, rfl, by decide⟩, rfl, ?_⟩
  refine ⟨"t1", by decide, by decide, by decide, ?_⟩
  intro variant hvar hvne
  rw [show (split_tag "unreliable|t1|v1|d1").2.1 = some "v1" from by decide]
    at hvar
  injection hvar with hv
  subst hv
  refine ⟨⟨"v1", ["t1"], ["d1"]⟩, by decide, by decide, ?_⟩
  intro distro hdis hdne
  rw [show (split_tag "unreliable|t1|v1|d1").2.2 = some "d1" from by decide]
    at hdis
  injection hdis with hd
  subst hd
  decide

/-- C9: the bare tag `"unreliable"` is never judged relevant:
`_split_tag` treats a single-component tag as invalid and returns
`(None, None, None)`, `_is_tag_still_relevant` then returns false for the
absent task, so `cleanup_tags` removes the bare tag from every entry that
survives (an entry survives only when its pattern matches a file). -/
theorem bare_unreliable_removed (evg_conf : EvergreenProjectConfig)
    (globMatches : String → Bool) (lifecycle : List TagsConfigEntry) :
    split_tag "unreliable" = (none, none, none) ∧
    is_tag_still_relevant evg_conf "unreliable" = false ∧
    ∀ entry ∈ cleanup_tags evg_conf globMatches lifecycle,
      "unreliable" ∉ entry.tags := by
  have hfalse : is_tag_still_relevant evg_conf "unreliable" = false := by
    unfold is_tag_still_relevant
    rw [show split_tag "unreliable" = (none, none, none) from by decide]
    simp [truthyOpt]
  refine ⟨by decide, hfalse, ?_⟩
  intro entry hmem htag
  unfold cleanup_tags at hmem
  simp only [List.mem_map, List.mem_filter] at hmem
  obtain ⟨e, ⟨-, -⟩, rfl⟩ := hmem
  rw [List.mem_filter] at htag
  rw [hfalse] at htag
  exact absurd htag.2 (by simp)

/-- Witness for C9: with topology containing only task `t1` and an entry
whose pattern matches, the bare tag is gone from the surviving entry. -/
theorem bare_unreliable_removed_witness :
    "unreliable" ∉ (TagsConfigEntry.mk "js_test" "jstests/core/a.js"
        ["unreliable|t1"]).tags :=
  (bare_unreliable_removed ⟨["t1"], []⟩ (fun _ => true)
      [⟨"js_test", "jstests/core/a.js", ["unreliable", "unreliable|t1"]⟩]).2.2
    ⟨"js_test", "jstests/core/a.js", ["unreliable|t1"]⟩ (by decide)

end UpdateTestLifecycle

namespace UpdateTestLifecycle

/-- Python `test.split("/")`, modelled character-wise like `pySplitBar`. -/
def pySplitSlash (s : String) : List String :=
  (s.data.splitOn '/').map (fun l => String.mk l)

/-- The `defaultdict(list)` update inside `create_test_groups`: append the
test to the list of its directory key, inserting a new key at the end in
first-seen order. -/
def addToGroup (groups : List (String × List String)) (dir test : String) :
    List (String × List String) :=
  match groups with
  | [] => [(dir, [test])]
  | (d, ts) :: rest =>
    if d = dir then (d, ts ++ [test]) :: rest
    else (d, ts) :: addToGroup rest dir test

/-- `create_test_groups(tests)`: group tests by `test.split("/")[1]`,
silently skipping any test whose path has at most one component. -/
def create_test_groups (tests : List String) :
    List (String × List String) :=
  tests.foldl
    (fun test_groups test =>
      if (pySplitSlash test).length ≤ 1 then test_groups
      else addToGroup test_groups ((pySplitSlash test).getD 1 "") test)
    []

/-- The `while test_group:` loop of `create_batch_groups`: chop one group
into chunks of `batch_size`.  The Python loop never terminates when
`batch_size = 0` and the group is non-empty; the model returns `[]` there
(the claims only concern `batch_size ≥ 1`). -/
def chunked (batch_size : ℕ) (test_group : List String) :
    List (List String) :=
  if test_group = [] ∨ batch_size = 0 then []
  else
    test_group.take batch_size ::
      chunked batch_size (test_group.drop batch_size)
termination_by test_group.length
decreasing_by
  rename_i h
  push_neg at h
  have hpos : 0 < test_group.length := List.length_pos.mpr h.1
  simp only [List.length_drop]
  omega

/-- `create_batch_groups(test_groups, batch_size)`: walk the groups in
order, chopping each into batches of at most `batch_size` tests. -/
def create_batch_groups (test_groups : List (String × List String))
    (batch_size : ℕ) : List (List String) :=
  test_groups.foldl
    (fun batch_groups g => batch_groups ++ chunked batch_size g.2) []

end UpdateTestLifecycle

namespace UpdateTestLifecycle

lemma chunked_flatten_aux (batch_size : ℕ) (hbs : 1 ≤ batch_size) :
    ∀ (n : ℕ) (l : List String), l.length ≤ n →
      (chunked batch_size l).flatten = l := by
  intro n
  induction n with
  | zero =>
    intro l hl
    have hnil : l = [] := List.length_eq_zero.mp (Nat.le_zero.mp hl)
    subst hnil
    rw [chunked]
    simp
  | succ n ih =>
    intro l hl
    rw [chunked]
    split_ifs with h
    · rcases h with rfl | h0
      · simp
      · omega
    · push_neg at h
      have hpos : 0 < l.length := List.length_pos.mpr h.1
      rw [List.flatten_cons,
        ih (l.drop batch_size) (by simp only [List.length_drop]; omega)]
      exact List.take_append_drop batch_size l

lemma chunked_flatten (batch_size : ℕ) (hbs : 1 ≤ batch_size)
    (l : List String) : (chunked batch_size l).flatten = l :=
  chunked_flatten_aux batch_size hbs l.length l le_rfl

lemma chunked_length_le_aux (batch_size : ℕ) :
    ∀ (n : ℕ) (l : List String), l.length ≤ n →
      ∀ b ∈ chunked batch_size l, b.length ≤ batch_size := by
  intro n
  induction n with
  | zero =>
    intro l hl b hb
    have hnil : l = [] := List.length_eq_zero.mp (Nat.le_zero.mp hl)
    subst hnil
    rw [chunked] at hb
    simp at hb
  | succ n ih =>
    intro l hl b hb
    rw [chunked] at hb
    split_ifs at hb with h
    · simp at hb
    · push_neg at h
      have hpos : 0 < l.length := List.length_pos.mpr h.1
      rcases List.mem_cons.mp hb with rfl | hb2
      · simp [List.length_take]
      · exact ih (l.drop batch_size)
          (by simp only [List.length_drop]; omega) b hb2

lemma chunked_length_le (batch_size : ℕ) (l : List String) :
    ∀ b ∈ chunked batch_size l, b.length ≤ batch_size :=
  chunked_length_le_aux batch_size l.length l le_rfl

lemma create_batch_groups_go (batch_size : ℕ)
    (test_groups : List (String × List String)) :
    ∀ acc : List (List String),
      test_groups.foldl
          (fun batch_groups g => batch_groups ++ chunked batch_size g.2)
          acc =
        acc ++ (test_groups.map (fun g => chunked batch_size g.2)).flatten := by
  induction test_groups with
  | nil => intro acc; simp
  | cons g rest ih =>
    intro acc
    simp only [List.foldl_cons, List.map_cons, List.flatten_cons]
    rw [ih]
    simp [List.append_assoc]

/-- The concatenation of all tests of all groups, in group order. -/
def groupsJoin (groups : List (String × List String)) : List String :=
  (groups.map (fun g => g.2)).flatten

lemma groupsJoin_cons (d : String) (ts : List String)
    (rest : List (String × List String)) :
    groupsJoin ((d, ts) :: rest) = ts ++ groupsJoin rest := by
  simp [groupsJoin]

lemma addToGroup_join (groups : List (String × List String))
    (dir test : String) :
    (groupsJoin (addToGroup groups dir test)).Perm
      (test :: groupsJoin groups) := by
  induction groups with
  | nil => simp [addToGroup, groupsJoin]
  | cons g rest ih =>
    rcases g with ⟨d, ts⟩
    rw [addToGroup]
    split_ifs with hd
    · rw [groupsJoin_cons, groupsJoin_cons, List.append_assoc]
      simp only [List.singleton_append]
      exact List.perm_middle
    · rw [groupsJoin_cons, groupsJoin_cons]
      exact (ih.append_left ts).trans List.perm_middle

end UpdateTestLifecycle

namespace UpdateTestLifecycle

lemma create_test_groups_go (tests : List String) :
    ∀ acc : List (String × List String),
      (groupsJoin (tests.foldl
          (fun test_groups test =>
            if (pySplitSlash test).length ≤ 1 then test_groups
            else addToGroup test_groups ((pySplitSlash test).getD 1 "") test)
          acc)).Perm
        (groupsJoin acc ++
          tests.filter (fun t => decide (1 < (pySplitSlash t).length))) := by
  induction tests with
  | nil => intro acc; simp
  | cons t rest ih =>
    intro acc
    simp only [List.foldl_cons]
    by_cases hlen : (pySplitSlash t).length ≤ 1
    · rw [if_pos hlen, List.filter_cons,
        if_neg (by simpa using Nat.not_lt.mpr hlen)]
      exact ih acc
    · rw [if_neg hlen, List.filter_cons,
        if_pos (by simpa using Nat.not_le.mp hlen)]
      refine (ih (addToGroup acc ((pySplitSlash t).getD 1 "") t)).trans ?_
      refine ((addToGroup_join acc _ t).append_right _).trans ?_
      simp only [List.cons_append]
      exact List.perm_middle.symm

lemma create_test_groups_join (tests : List String) :
    (groupsJoin (create_test_groups tests)).Perm
      (tests.filter (fun t => decide (1 < (pySplitSlash t).length))) := by
  have h := create_test_groups_go tests []
  simpa [groupsJoin, create_test_groups] using h

lemma flatten_chunked_map (batch_size : ℕ) (hbs : 1 ≤ batch_size)
    (groups : List (String × List String)) :
    ((groups.map (fun g => chunked batch_size g.2)).flatten).flatten =
      groupsJoin groups := by
  induction groups with
  | nil => simp [groupsJoin]
  | cons g rest ih =>
    simp only [List.map_cons, List.flatten_cons, List.flatten_append]
    rw [chunked_flatten batch_size hbs, ih]
    simp [groupsJoin]

/-- C10: for every test list and batch size of at least 1, composing
`create_test_groups` with `create_batch_groups` produces batches of at most
`batch_size` tests whose concatenation is, up to order, exactly the input
tests having at least two `"/"`-separated path components; a test whose
path has no directory component is excluded from every batch. -/
theorem batching_correct (tests : List String) (batch_size : ℕ)
    (hbs : 1 ≤ batch_size) :
    (∀ b ∈ create_batch_groups (create_test_groups tests) batch_size,
        b.length ≤ batch_size) ∧
    (create_batch_groups (create_test_groups tests) batch_size).flatten.Perm
      (tests.filter (fun t => decide (1 < (pySplitSlash t).length))) := by
  constructor
  · intro b hb
    unfold create_batch_groups at hb
    rw [create_batch_groups_go] at hb
    simp only [List.nil_append, List.mem_flatten, List.mem_map] at hb
    obtain ⟨chunks, ⟨g, hg, rfl⟩, hbmem⟩ := hb
    exact chunked_length_le batch_size g.2 b hbmem
  · unfold create_batch_groups
    rw [create_batch_groups_go]
    simp only [List.nil_append]
    rw [flatten_chunked_map batch_size hbs]
    exact create_test_groups_join tests

/-- Witness for C10 on a concrete test list with batch size 2. -/
theorem batching_correct_witness :
    (∀ b ∈ create_batch_groups (create_test_groups
        ["jstests/core/a.js", "noslash", "jstests/core/b.js",
         "jstests/aggregation/c.js"]) 2, b.length ≤ 2) ∧
    (create_batch_groups (create_test_groups
        ["jstests/core/a.js", "noslash", "jstests/core/b.js",
         "jstests/aggregation/c.js"]) 2).flatten.Perm
      (["jstests/core/a.js", "noslash", "jstests/core/b.js",
        "jstests/aggregation/c.js"].filter
        (fun t => decide (1 < (pySplitSlash t).length))) :=
  batching_correct
    ["jstests/core/a.js", "noslash", "jstests/core/b.js",
     "jstests/aggregation/c.js"] 2 (by norm_num)

end UpdateTestLifecycle
